import Mathlib

/-
Verification of the tile request pipeline of the cybo.jp slide viewer:
the byte-budgeted TileCache (internal/tiler/cache.go), the GPU tile
pipeline and batch coordinator (internal/tiler/gpu_processor.go), the
scanner device client (internal/tiler/encoders.go, package scanner) and
the HTTP handlers that drive them (internal/api/handler.go).

External effects (CUDA calls, image encoder libraries, the storage
backend and the network connection) are modelled as explicit inputs;
the Go functions themselves are translated statement by statement.
Machine integers are modelled as Nat / Int (no overflow is relevant at
the sizes involved); byte slices are lists of Nat; pointer-valued byte
buffers live in an explicit heap so that aliasing is observable.
-/

namespace CytoViewer

/-! ## Decimal formatting (Go fmt %d), used for the Sprintf cache key -/

/-- One decimal digit character, 0 ≤ n ≤ 9 maps to the characters 0-9.
The catch-all case is never reached on arguments below ten. -/
def digitCh : Nat → Char
  | 0 => '0'
  | 1 => '1'
  | 2 => '2'
  | 3 => '3'
  | 4 => '4'
  | 5 => '5'
  | 6 => '6'
  | 7 => '7'
  | 8 => '8'
  | 9 => '9'
  | _ => '*'

/-- Decimal digits of a natural number, most significant first.
The first argument is recursion fuel; `natChars` supplies enough of it. -/
def natCharsAux : Nat → Nat → List Char
  | 0, _ => []
  | fuel + 1, n => if n = 0 then [] else natCharsAux fuel (n / 10) ++ [digitCh (n % 10)]

/-- Decimal representation of a natural number, as Go fmt prints it. -/
def natChars (n : Nat) : List Char := if n = 0 then ['0'] else natCharsAux n n

/-- Decimal representation of a Go int under the %d verb. -/
def intChars (i : Int) : List Char :=
  if i < 0 then '-' :: natChars i.natAbs else natChars i.toNat

/-- Read decimal digit characters back into a number (accumulator form). -/
def charsValAux : Nat → List Char → Nat
  | acc, [] => acc
  | acc, c :: cs => charsValAux (acc * 10 + (c.toNat - 48)) cs

theorem charsValAux_nil (acc : Nat) : charsValAux acc [] = acc := rfl

theorem charsValAux_cons (acc : Nat) (c : Char) (cs : List Char) :
    charsValAux acc (c :: cs) = charsValAux (acc * 10 + (c.toNat - 48)) cs := rfl

theorem charsValAux_append (l₁ l₂ : List Char) :
    ∀ acc, charsValAux acc (l₁ ++ l₂) = charsValAux (charsValAux acc l₁) l₂ := by
  induction l₁ with
  | nil => intro acc; rfl
  | cons c cs ih => intro acc; exact ih (acc * 10 + (c.toNat - 48))

theorem digitCh_toNat : ∀ m, m < 10 → (digitCh m).toNat = 48 + m := by
  intro m hm
  interval_cases m <;> rfl

theorem natCharsAux_val : ∀ fuel n, n ≤ fuel →
    ∀ acc, charsValAux acc (natCharsAux fuel n) =
      acc * 10 ^ (natCharsAux fuel n).length + n := by
  intro fuel
  induction fuel with
  | zero =>
    intro n hn acc
    have hn0 : n = 0 := Nat.le_zero.mp hn
    subst hn0
    simp [natCharsAux, charsValAux_nil]
  | succ fuel ih =>
    intro n hn acc
    by_cases h0 : n = 0
    · subst h0; simp [natCharsAux, charsValAux_nil]
    · have hpos : 0 < n := Nat.pos_of_ne_zero h0
      have hlt : n / 10 < n := Nat.div_lt_self hpos (by norm_num)
      have hdiv : n / 10 ≤ fuel := by omega
      simp only [natCharsAux, if_neg h0]
      rw [charsValAux_append]
      rw [ih (n / 10) hdiv acc]
      rw [charsValAux_cons, charsValAux_nil]
      rw [digitCh_toNat (n % 10) (Nat.mod_lt n (by norm_num))]
      have hmod : 48 + n % 10 - 48 = n % 10 := by omega
      rw [hmod]
      rw [List.length_append, List.length_singleton, pow_add, pow_one]
      have hdm : 10 * (n / 10) + n % 10 = n := Nat.div_add_mod n 10
      calc (acc * 10 ^ (natCharsAux fuel (n / 10)).length + n / 10) * 10 + n % 10
          = acc * (10 ^ (natCharsAux fuel (n / 10)).length * 10) + (10 * (n / 10) + n % 10) := by
            ring
        _ = acc * (10 ^ (natCharsAux fuel (n / 10)).length * 10) + n := by rw [hdm]

theorem charsVal_natChars (n : Nat) : charsValAux 0 (natChars n) = n := by
  by_cases h0 : n = 0
  · subst h0; decide
  · have := natCharsAux_val n n le_rfl 0
    simp only [natChars, if_neg h0]
    rw [this]; ring

theorem natChars_injective {m n : Nat} (h : natChars m = natChars n) : m = n := by
  have hm := charsVal_natChars m
  have hn := charsVal_natChars n
  rw [h] at hm
  omega

theorem natCharsAux_mem : ∀ fuel n c, c ∈ natCharsAux fuel n → ∃ m, m < 10 ∧ c = digitCh m := by
  intro fuel
  induction fuel with
  | zero => intro n c hc; simp [natCharsAux] at hc
  | succ fuel ih =>
    intro n c hc
    by_cases h0 : n = 0
    · subst h0; simp [natCharsAux] at hc
    · simp only [natCharsAux, if_neg h0, List.mem_append, List.mem_singleton] at hc
      rcases hc with hc | hc
      · exact ih _ _ hc
      · exact ⟨n % 10, Nat.mod_lt n (by norm_num), hc⟩

theorem natChars_mem {n : Nat} {c : Char} (hc : c ∈ natChars n) :
    ∃ m, m < 10 ∧ c = digitCh m := by
  by_cases h0 : n = 0
  · subst h0
    rw [show natChars 0 = ['0'] from rfl] at hc
    exact ⟨0, by norm_num, List.mem_singleton.mp hc⟩
  · simp only [natChars, if_neg h0] at hc
    exact natCharsAux_mem n n c hc

theorem digitCh_ne_colon : ∀ m, m < 10 → digitCh m ≠ ':' := by
  intro m hm
  interval_cases m <;> decide

theorem digitCh_ne_dash : ∀ m, m < 10 → digitCh m ≠ '-' := by
  intro m hm
  interval_cases m <;> decide

theorem colon_not_mem_natChars (n : Nat) : ':' ∉ natChars n := by
  intro hmem
  obtain ⟨m, hm, hc⟩ := natChars_mem hmem
  exact digitCh_ne_colon m hm hc.symm

theorem dash_not_mem_natChars (n : Nat) : '-' ∉ natChars n := by
  intro hmem
  obtain ⟨m, hm, hc⟩ := natChars_mem hmem
  exact digitCh_ne_dash m hm hc.symm

theorem colon_not_mem_intChars (i : Int) : ':' ∉ intChars i := by
  unfold intChars
  by_cases hneg : i < 0
  · simp only [if_pos hneg, List.mem_cons]
    rintro (h | h)
    · exact absurd h.symm (by decide)
    · exact colon_not_mem_natChars _ h
  · simp only [if_neg hneg]
    exact colon_not_mem_natChars _

theorem intChars_injective {i j : Int} (h : intChars i = intChars j) : i = j := by
  unfold intChars at h
  by_cases hi : i < 0 <;> by_cases hj : j < 0
  · simp only [if_pos hi, if_pos hj, List.cons.injEq] at h
    have := natChars_injective h.2
    omega
  · simp only [if_pos hi, if_neg hj] at h
    have : '-' ∈ natChars j.toNat := h ▸ List.mem_cons_self _ _
    exact absurd this (dash_not_mem_natChars _)
  · simp only [if_neg hi, if_pos hj] at h
    have : '-' ∈ natChars i.toNat := h.symm ▸ List.mem_cons_self _ _
    exact absurd this (dash_not_mem_natChars _)
  · simp only [if_neg hi, if_neg hj] at h
    have := natChars_injective h
    omega

/-! ## Splitting a string at its last separator -/

theorem colonfree_prefix_inj :
    ∀ (x₁ : List Char), ∀ {x₂ y₁ y₂ : List Char}, ':' ∉ x₁ → ':' ∉ x₂ →
      x₁ ++ ':' :: y₁ = x₂ ++ ':' :: y₂ → x₁ = x₂ ∧ y₁ = y₂ := by
  intro x₁
  induction x₁ with
  | nil =>
    intro x₂ y₁ y₂ _ hx₂ h
    cases x₂ with
    | nil =>
      simp only [List.nil_append, List.cons.injEq] at h
      exact ⟨rfl, h.2⟩
    | cons c cs =>
      simp only [List.nil_append, List.cons_append, List.cons.injEq] at h
      exact absurd (h.1 ▸ List.mem_cons_self c cs) (h.1 ▸ hx₂)
  | cons c cs ih =>
    intro x₂ y₁ y₂ hx₁ hx₂ h
    cases x₂ with
    | nil =>
      simp only [List.cons_append, List.nil_append, List.cons.injEq] at h
      exact absurd (h.1 ▸ List.mem_cons_self c cs) (h.1 ▸ hx₁)
    | cons d ds =>
      simp only [List.cons_append, List.cons.injEq] at h
      obtain ⟨hcd, htail⟩ := h
      have h₁ : ':' ∉ cs := fun hm => hx₁ (List.mem_cons_of_mem _ hm)
      have h₂ : ':' ∉ ds := fun hm => hx₂ (List.mem_cons_of_mem _ hm)
      obtain ⟨he, hy⟩ := ih h₁ h₂ htail
      exact ⟨by rw [hcd, he], hy⟩

theorem append_colon_last_inj {a₁ b₁ a₂ b₂ : List Char}
    (hb₁ : ':' ∉ b₁) (hb₂ : ':' ∉ b₂)
    (h : a₁ ++ ':' :: b₁ = a₂ ++ ':' :: b₂) : a₁ = a₂ ∧ b₁ = b₂ := by
  have hrev := congrArg List.reverse h
  simp only [List.reverse_append, List.reverse_cons] at hrev
  have hshape : ∀ (a b : List Char),
      (b.reverse ++ [':']) ++ a.reverse = b.reverse ++ ':' :: a.reverse := by
    intro a b; simp
  rw [hshape a₁ b₁, hshape a₂ b₂] at hrev
  have hb₁r : ':' ∉ b₁.reverse := fun hm => hb₁ (List.mem_reverse.mp hm)
  have hb₂r : ':' ∉ b₂.reverse := fun hm => hb₂ (List.mem_reverse.mp hm)
  obtain ⟨hbr, har⟩ := colonfree_prefix_inj _ hb₁r hb₂r hrev
  exact ⟨List.reverse_injective har, List.reverse_injective hbr⟩

/-! ## The Sprintf cache key of ProcessTile (gpu_processor.go line 98) -/

/-- Character-level form of
fmt.Sprintf with the %s:%d:%d:%d:%d verb applied to
(SlideID, Layer, X, Y, Z). -/
def cacheKeyChars (s : List Char) (layer x y z : Int) : List Char :=
  s ++ ':' :: intChars layer ++ ':' :: intChars x ++ ':' :: intChars y ++ ':' :: intChars z

/-- The cache key string computed at the top of ProcessTile. -/
def tileCacheKey (slideId : String) (layer x y z : Int) : String :=
  ⟨cacheKeyChars slideId.data layer x y z⟩

theorem cacheKeyChars_nested (s : List Char) (layer x y z : Int) :
    cacheKeyChars s layer x y z =
      (((s ++ ':' :: intChars layer) ++ ':' :: intChars x) ++ ':' :: intChars y)
        ++ ':' :: intChars z := by
  simp [cacheKeyChars, List.append_assoc]

theorem cacheKeyChars_inj {s₁ s₂ : List Char} {l₁ x₁ y₁ z₁ l₂ x₂ y₂ z₂ : Int}
    (h : cacheKeyChars s₁ l₁ x₁ y₁ z₁ = cacheKeyChars s₂ l₂ x₂ y₂ z₂) :
    s₁ = s₂ ∧ l₁ = l₂ ∧ x₁ = x₂ ∧ y₁ = y₂ ∧ z₁ = z₂ := by
  rw [cacheKeyChars_nested, cacheKeyChars_nested] at h
  obtain ⟨h, hz⟩ := append_colon_last_inj (colon_not_mem_intChars _) (colon_not_mem_intChars _) h
  obtain ⟨h, hy⟩ := append_colon_last_inj (colon_not_mem_intChars _) (colon_not_mem_intChars _) h
  obtain ⟨h, hx⟩ := append_colon_last_inj (colon_not_mem_intChars _) (colon_not_mem_intChars _) h
  obtain ⟨hs, hl⟩ := append_colon_last_inj (colon_not_mem_intChars _) (colon_not_mem_intChars _) h
  exact ⟨hs, intChars_injective hl, intChars_injective hx,
    intChars_injective hy, intChars_injective hz⟩

/-- C9: the TileIdentity to cache-key mapping is total (it is a function)
and injective: two identities share a key string exactly when the slide id
and all four coordinates agree, even when the slide id contains the
separator character. -/
theorem cache_key_injective (s₁ s₂ : String) (l₁ x₁ y₁ z₁ l₂ x₂ y₂ z₂ : Int) :
    tileCacheKey s₁ l₁ x₁ y₁ z₁ = tileCacheKey s₂ l₂ x₂ y₂ z₂ ↔
      (s₁ = s₂ ∧ l₁ = l₂ ∧ x₁ = x₂ ∧ y₁ = y₂ ∧ z₁ = z₂) := by
  constructor
  · intro h
    have hchars : cacheKeyChars s₁.data l₁ x₁ y₁ z₁ = cacheKeyChars s₂.data l₂ x₂ y₂ z₂ := by
      have := congrArg String.data h
      simpa [tileCacheKey] using this
    obtain ⟨hs, hl, hx, hy, hz⟩ := cacheKeyChars_inj hchars
    refine ⟨?_, hl, hx, hy, hz⟩
    cases s₁; cases s₂; exact congrArg String.mk hs
  · rintro ⟨rfl, rfl, rfl, rfl, rfl⟩; rfl

/-! ## Byte buffers and a small heap

Go byte slices that matter for aliasing (TileResponse.Data) are stored in
an explicit heap: a buffer is named by the address at which it was
allocated, so that two slices sharing backing storage are observable. -/

structure GoHeap where
  bufs : Nat → List Nat
  next : Nat

def emptyHeap : GoHeap := ⟨fun _ => [], 0⟩

/-- Allocate a fresh buffer holding the given bytes, as a Go append-copy
or make does, and return its address. -/
def allocBuf (h : GoHeap) (bytes : List Nat) : Nat × GoHeap :=
  (h.next, ⟨fun a => if a = h.next then bytes else h.bufs a, h.next + 1⟩)

/-- Overwrite the buffer at an address in place, the effect of a caller
mutating a byte slice it holds. -/
def writeBuf (h : GoHeap) (addr : Nat) (bytes : List Nat) : GoHeap :=
  ⟨fun a => if a = addr then bytes else h.bufs a, h.next⟩

/-! ## TileCache (internal/tiler/cache.go)

The Go items map and the container/list doubly linked list always hold
the same entries; both are modelled by one list ordered most recently
used first, so MoveToFront is remove-then-cons and Back is the last
element. uint64 counters are Nat, int64 byte counts are Int.
Timestamps are unused by the cache logic and kept at zero. -/

structure TileResponse where
  Data : Nat
  Width : Int
  Height : Int
  ContentType : String
  CacheKey : String
  deriving DecidableEq

structure cacheEntry where
  key : String
  value : TileResponse
  size : Int
  timestamp : Nat
  deriving DecidableEq

structure TileCache where
  maxSize : Int
  currentSize : Int
  lru : List cacheEntry
  hits : Nat
  misses : Nat
  deriving DecidableEq

def NewTileCache (maxSizeBytes : Int) : TileCache :=
  { maxSize := maxSizeBytes, currentSize := 0, lru := [], hits := 0, misses := 0 }

/-- Lookup in the items map: the first (and only) entry with this key. -/
def findEntry : List cacheEntry → String → Option cacheEntry
  | [], _ => none
  | e :: rest, k => if e.key = k then some e else findEntry rest k

/-- Remove the first entry with this key, the list half of MoveToFront
and of map deletion. -/
def removeKey : List cacheEntry → String → List cacheEntry
  | [], _ => []
  | e :: rest, k => if e.key = k then rest else e :: removeKey rest k

/-- cache.go Get (lines 34-56): miss counts and changes nothing else; a
hit counts, promotes the entry to most recently used and returns a fresh
copy of the stored response bytes (append to a nil slice). -/
def TileCache.Get (c : TileCache) (h : GoHeap) (key : String) :
    Option TileResponse × TileCache × GoHeap :=
  match findEntry c.lru key with
  | none => (none, { c with misses := c.misses + 1 }, h)
  | some e =>
    let lruMoved := e :: removeKey c.lru key
    let copied := allocBuf h (h.bufs e.value.Data)
    (some { Data := copied.1, Width := e.value.Width, Height := e.value.Height,
            ContentType := e.value.ContentType, CacheKey := e.value.CacheKey },
     { c with hits := c.hits + 1, lru := lruMoved }, copied.2)

/-- cache.go evictOldest (lines 93-103) iterated by the Set loop
(line 77): while currentSize + size > maxSize and the list is nonempty,
drop the back element and subtract its size. Operates on the reversed
list (back first) so the recursion is structural. -/
def evictRev (maxSize size : Int) : List cacheEntry → Int → List cacheEntry × Int
  | [], cur => ([], cur)
  | e :: rest, cur =>
    if cur + size > maxSize then evictRev maxSize size rest (cur - e.size)
    else (e :: rest, cur)

/-- cache.go Set (lines 58-91): an existing key is updated in place (size
delta accounting, promote to front, no eviction); a new key first evicts
from the back until the entry fits or the cache is empty, then is pushed
to the front. The stored response is the callers pointer, not a copy. -/
def TileCache.Set (c : TileCache) (h : GoHeap) (key : String) (value : TileResponse) :
    TileCache :=
  let size : Int := ((h.bufs value.Data).length : Int)
  match findEntry c.lru key with
  | some e =>
    { c with currentSize := c.currentSize - e.size + size,
             lru := { key := key, value := value, size := size, timestamp := 0 }
                      :: removeKey c.lru key }
  | none =>
    let ev := evictRev c.maxSize size c.lru.reverse c.currentSize
    { c with lru := { key := key, value := value, size := size, timestamp := 0 }
                      :: ev.1.reverse,
             currentSize := ev.2 + size }

/-- cache.go Clear (lines 105-112): fresh map and list, zero size; the
hit and miss counters are not touched. -/
def TileCache.Clear (c : TileCache) : TileCache :=
  { c with lru := [], currentSize := 0 }

/-- cache.go Stats (lines 114-119). -/
def TileCache.Stats (c : TileCache) : Nat × Nat × Int × Nat :=
  (c.hits, c.misses, c.currentSize, c.lru.length)

/-! ## An exact model of the float64 values arising in hit-rate reporting

Division is exact on rationals here; IEEE rounding never matters for the
properties below, but the zero-divided-by-zero case does, so the NaN and
infinity outcomes of IEEE division are modelled explicitly. -/

inductive GoFloat where
  | nan : GoFloat
  | inf : Bool → GoFloat
  | val : ℚ → GoFloat
  deriving DecidableEq

/-- IEEE 754 division restricted to the cases that arise from finite
operands: 0/0 is NaN, x/0 is a signed infinity, otherwise exact. -/
def fdiv : GoFloat → GoFloat → GoFloat
  | .val a, .val b =>
    if b = 0 then (if a = 0 then .nan else .inf (decide (a < 0))) else .val (a / b)
  | _, _ => .nan

/-- cache.go HitRate (lines 121-130): guarded against a zero total. -/
def TileCache.HitRate (c : TileCache) : GoFloat :=
  let total := c.hits + c.misses
  if total = 0 then .val 0 else fdiv (.val c.hits) (.val total)

/-- handler.go handleSystemStats (line 238): hitRate is computed from
Stats as float64(hits) / float64(hits+misses), with no zero guard. -/
def systemStatsHitRate (c : TileCache) : GoFloat :=
  fdiv (.val c.hits) (.val (c.hits + c.misses))

/-! ## Sequences of cache operations -/

inductive CacheOp where
  | get : String → CacheOp
  | set : String → TileResponse → CacheOp
  | clear : CacheOp

def applyOp (s : TileCache × GoHeap) : CacheOp → TileCache × GoHeap
  | .get k => ((s.1.Get s.2 k).2.1, (s.1.Get s.2 k).2.2)
  | .set k v => (s.1.Set s.2 k v, s.2)
  | .clear => (s.1.Clear, s.2)

def runOps (s : TileCache × GoHeap) : List CacheOp → TileCache × GoHeap
  | [] => s
  | op :: rest => runOps (applyOp s op) rest

/-- Total of the per-entry size fields, the quantity the currentSize
accounting is supposed to track. -/
def sumSizes : List cacheEntry → Int
  | [] => 0
  | e :: rest => e.size + sumSizes rest

/-! ## Unfolding lemmas for the recursive definitions -/

theorem findEntry_nil (k : String) : findEntry [] k = none := rfl

theorem findEntry_cons (e : cacheEntry) (rest : List cacheEntry) (k : String) :
    findEntry (e :: rest) k = if e.key = k then some e else findEntry rest k := rfl

theorem removeKey_nil (k : String) : removeKey [] k = [] := rfl

theorem removeKey_cons (e : cacheEntry) (rest : List cacheEntry) (k : String) :
    removeKey (e :: rest) k = if e.key = k then rest else e :: removeKey rest k := rfl

theorem sumSizes_nil : sumSizes [] = 0 := rfl

theorem sumSizes_cons (e : cacheEntry) (rest : List cacheEntry) :
    sumSizes (e :: rest) = e.size + sumSizes rest := rfl

theorem evictRev_nil (maxSize size cur : Int) : evictRev maxSize size [] cur = ([], cur) := rfl

theorem evictRev_cons (maxSize size : Int) (e : cacheEntry) (rest : List cacheEntry)
    (cur : Int) :
    evictRev maxSize size (e :: rest) cur =
      if cur + size > maxSize then evictRev maxSize size rest (cur - e.size)
      else (e :: rest, cur) := rfl

theorem runOps_nil (s : TileCache × GoHeap) : runOps s [] = s := rfl

theorem runOps_cons (s : TileCache × GoHeap) (op : CacheOp) (rest : List CacheOp) :
    runOps s (op :: rest) = runOps (applyOp s op) rest := rfl

/-! ## C10: the unguarded hit-rate division in handleSystemStats -/

/-- C10: a cache that has served no requests makes handleSystemStats
report 0/0, which IEEE division turns into NaN, while TileCache.HitRate,
which the endpoint does not call, returns 0 for the same state. -/
theorem stats_hitrate_nan (c : TileCache) (hh : c.hits = 0) (hm : c.misses = 0) :
    systemStatsHitRate c = GoFloat.nan ∧ c.HitRate = GoFloat.val 0 := by
  constructor
  · simp [systemStatsHitRate, fdiv, hh, hm]
  · simp [TileCache.HitRate, hh, hm]

theorem stats_hitrate_nan_witness :
    systemStatsHitRate (NewTileCache 104857600) = GoFloat.nan ∧
      (NewTileCache 104857600).HitRate = GoFloat.val 0 :=
  stats_hitrate_nan (NewTileCache 104857600) rfl rfl

/-! ## C4: counter monotonicity, and what Clear actually resets -/

theorem hits_misses_step (s : TileCache × GoHeap) (op : CacheOp) :
    s.1.hits ≤ (applyOp s op).1.hits ∧ s.1.misses ≤ (applyOp s op).1.misses := by
  cases op with
  | get k =>
    cases hfind : findEntry s.1.lru k <;>
      simp [applyOp, TileCache.Get, hfind]
  | set k v =>
    cases hfind : findEntry s.1.lru k <;>
      simp [applyOp, TileCache.Set, hfind]
  | clear => simp [applyOp, TileCache.Clear]

theorem hits_misses_monotone (ops : List CacheOp) :
    ∀ s : TileCache × GoHeap,
      s.1.hits ≤ (runOps s ops).1.hits ∧ s.1.misses ≤ (runOps s ops).1.misses := by
  induction ops with
  | nil => intro s; exact ⟨le_rfl, le_rfl⟩
  | cons op rest ih =>
    intro s
    have hstep := hits_misses_step s op
    have hrest := ih (applyOp s op)
    rw [runOps_cons]
    exact ⟨le_trans hstep.1 hrest.1, le_trans hstep.2 hrest.2⟩

/-- C4 amended: over every sequence of cache operations the hit and miss
counters never decrease, including across Clear; Clear resets resident
bytes to zero and empties the entry list but leaves both counters
unchanged rather than resetting them. -/
theorem counters_monotone_amended :
    (∀ (s : TileCache × GoHeap) (ops : List CacheOp),
       s.1.hits ≤ (runOps s ops).1.hits ∧ s.1.misses ≤ (runOps s ops).1.misses) ∧
    (∀ c : TileCache,
       c.Clear.hits = c.hits ∧ c.Clear.misses = c.misses ∧
         c.Clear.currentSize = 0 ∧ c.Clear.lru = []) :=
  ⟨fun s ops => hits_misses_monotone ops s,
   fun _ => ⟨rfl, rfl, rfl, rfl⟩⟩

/-- C4 counterexample: one miss then Clear leaves the miss counter at 1,
so Clear does not reset the counters to zero as the claim states. -/
theorem clear_keeps_counters_counterexample :
    (runOps (NewTileCache 104857600, emptyHeap) [CacheOp.get "k", CacheOp.clear]).1.misses
      = 1 ∧
    (runOps (NewTileCache 104857600, emptyHeap) [CacheOp.get "k", CacheOp.clear]).1.misses
      ≠ 0 := by
  constructor <;> decide

/-! ## C2: the byte-budget invariant -/

/-- The side condition under which the capacity bound is provable,
the weakest one the two counterexample behaviors leave open: a Set on a
fresh key must carry an entry that fits the configured budget (eviction
can free everything else), and a Set updating an existing key — which
the code applies by size delta without evicting — must land within the
budget, so shrinking updates and in-budget growing updates are allowed.
Get and Clear are unrestricted. -/
def setOk (s : TileCache × GoHeap) : CacheOp → Bool
  | .set k v =>
    match findEntry s.1.lru k with
    | none => decide (((s.2.bufs v.Data).length : Int) ≤ s.1.maxSize)
    | some e =>
      decide (s.1.currentSize - e.size + ((s.2.bufs v.Data).length : Int) ≤ s.1.maxSize)
  | _ => true

def goodRun (s : TileCache × GoHeap) : List CacheOp → Bool
  | [] => true
  | op :: rest => setOk s op && goodRun (applyOp s op) rest

theorem goodRun_nil (s : TileCache × GoHeap) : goodRun s [] = true := rfl

theorem goodRun_cons (s : TileCache × GoHeap) (op : CacheOp) (rest : List CacheOp) :
    goodRun s (op :: rest) = (setOk s op && goodRun (applyOp s op) rest) := rfl

theorem sumSizes_append (l₁ l₂ : List cacheEntry) :
    sumSizes (l₁ ++ l₂) = sumSizes l₁ + sumSizes l₂ := by
  induction l₁ with
  | nil => simp [sumSizes_nil]
  | cons e rest ih => simp [sumSizes_cons, ih]; ring

theorem sumSizes_reverse (l : List cacheEntry) : sumSizes l.reverse = sumSizes l := by
  induction l with
  | nil => rfl
  | cons e rest ih =>
    rw [List.reverse_cons, sumSizes_append, sumSizes_cons, sumSizes_cons, sumSizes_nil, ih]
    ring

theorem sumSizes_removeKey (l : List cacheEntry) (k : String) (e : cacheEntry)
    (hfind : findEntry l k = some e) :
    sumSizes l = e.size + sumSizes (removeKey l k) := by
  induction l with
  | nil => simp [findEntry_nil] at hfind
  | cons a rest ih =>
    rw [findEntry_cons] at hfind
    by_cases hk : a.key = k
    · rw [if_pos hk] at hfind
      rw [removeKey_cons, if_pos hk, sumSizes_cons]
      cases hfind
      rfl
    · rw [if_neg hk] at hfind
      rw [removeKey_cons, if_neg hk, sumSizes_cons, sumSizes_cons, ih hfind]
      ring

theorem evictRev_spec (maxSize size : Int) (l : List cacheEntry) :
    ∀ cur, cur = sumSizes l →
      (evictRev maxSize size l cur).2 = sumSizes (evictRev maxSize size l cur).1 ∧
      ((evictRev maxSize size l cur).2 + size ≤ maxSize ∨
        (evictRev maxSize size l cur).1 = []) := by
  induction l with
  | nil =>
    intro cur hcur
    rw [evictRev_nil]
    exact ⟨hcur.trans rfl, Or.inr rfl⟩
  | cons e rest ih =>
    intro cur hcur
    rw [evictRev_cons]
    by_cases hc : cur + size > maxSize
    · rw [if_pos hc]
      apply ih
      rw [sumSizes_cons] at hcur
      omega
    · rw [if_neg hc]
      exact ⟨hcur, Or.inl (by omega)⟩

/-- The invariant carried across a run: the size accounting matches the
entry list, the resident bytes respect the budget, and the budget itself
is nonnegative. -/
def CacheInv (c : TileCache) : Prop :=
  c.currentSize = sumSizes c.lru ∧ c.currentSize ≤ c.maxSize ∧ 0 ≤ c.maxSize

theorem applyOp_maxSize (s : TileCache × GoHeap) (op : CacheOp) :
    (applyOp s op).1.maxSize = s.1.maxSize := by
  cases op with
  | get k => cases hfind : findEntry s.1.lru k <;> simp [applyOp, TileCache.Get, hfind]
  | set k v => cases hfind : findEntry s.1.lru k <;> simp [applyOp, TileCache.Set, hfind]
  | clear => rfl

theorem cacheInv_step (s : TileCache × GoHeap) (op : CacheOp)
    (hInv : CacheInv s.1) (hok : setOk s op = true) : CacheInv (applyOp s op).1 := by
  obtain ⟨hacc, hbound, hcap⟩ := hInv
  cases op with
  | get k =>
    cases hfind : findEntry s.1.lru k with
    | none => simpa [applyOp, TileCache.Get, hfind, CacheInv] using ⟨hacc, hbound, hcap⟩
    | some e =>
      refine ⟨?_, ?_, ?_⟩ <;> simp [applyOp, TileCache.Get, hfind]
      · rw [sumSizes_cons, hacc, sumSizes_removeKey s.1.lru k e hfind]
      · exact hbound
      · exact hcap
  | set k v =>
    cases hfind : findEntry s.1.lru k with
    | some e =>
      simp only [setOk, hfind, decide_eq_true_eq] at hok
      have hrm := sumSizes_removeKey s.1.lru k e hfind
      refine ⟨?_, ?_, ?_⟩ <;> simp [applyOp, TileCache.Set, hfind, sumSizes_cons]
      · omega
      · omega
      · exact hcap
    | none =>
      simp only [setOk, hfind, decide_eq_true_eq] at hok
      have hspec := evictRev_spec s.1.maxSize ((s.2.bufs v.Data).length : Int)
        s.1.lru.reverse s.1.currentSize (by rw [hacc, sumSizes_reverse])
      refine ⟨?_, ?_, ?_⟩ <;> simp [applyOp, TileCache.Set, hfind]
      · rw [sumSizes_cons, sumSizes_reverse, ← hspec.1]
        ring
      · rcases hspec.2 with hfits | hempty
        · omega
        · have hz : (evictRev s.1.maxSize ((s.2.bufs v.Data).length : Int)
              s.1.lru.reverse s.1.currentSize).2 = 0 := by
            rw [hspec.1, hempty, sumSizes_nil]
          omega
      · exact hcap
  | clear =>
    exact ⟨rfl, by simpa [applyOp, TileCache.Clear] using hcap,
      by simpa [applyOp, TileCache.Clear] using hcap⟩

theorem cacheInv_run (ops : List CacheOp) :
    ∀ s : TileCache × GoHeap, CacheInv s.1 → goodRun s ops = true →
      CacheInv (runOps s ops).1 := by
  induction ops with
  | nil => intro s hInv _; exact hInv
  | cons op rest ih =>
    intro s hInv hgood
    rw [goodRun_cons, Bool.and_eq_true] at hgood
    rw [runOps_cons]
    exact ih (applyOp s op) (cacheInv_step s op hInv hgood.1) hgood.2

theorem goodRun_prefix (pre : List CacheOp) :
    ∀ (s : TileCache × GoHeap) (suf : List CacheOp),
      goodRun s (pre ++ suf) = true → goodRun s pre = true := by
  induction pre with
  | nil => intro s suf _; rfl
  | cons op rest ih =>
    intro s suf hgood
    rw [List.cons_append, goodRun_cons, Bool.and_eq_true] at hgood
    rw [goodRun_cons, Bool.and_eq_true]
    exact ⟨hgood.1, ih (applyOp s op) suf hgood.2⟩

theorem runOps_maxSize (ops : List CacheOp) :
    ∀ s : TileCache × GoHeap, (runOps s ops).1.maxSize = s.1.maxSize := by
  induction ops with
  | nil => intro s; rfl
  | cons op rest ih =>
    intro s
    rw [runOps_cons, ih (applyOp s op), applyOp_maxSize]

/-- C2 amended: starting from a fresh cache with a nonnegative capacity,
the resident byte count stays within the capacity after every prefix of
any operation sequence whose Sets stay within budget in the sense the
code enforces it: a Set on a fresh key carries an entry of size at most
the capacity, and a Set updating an existing key — applied by size
delta without evicting — lands at or below the capacity, which admits
shrinking updates and in-budget growing updates. Exactly the two
counterexample behaviors are excluded: a single fresh entry larger than
the whole budget (still inserted, after evicting everything else) and
an updating Set whose delta pushes resident bytes past the budget. -/
theorem cache_capacity_amended (cap : Int) (h0 : GoHeap) (ops pre suf : List CacheOp)
    (hcap : 0 ≤ cap) (hgood : goodRun (NewTileCache cap, h0) ops = true)
    (hsplit : ops = pre ++ suf) :
    (runOps (NewTileCache cap, h0) pre).1.currentSize ≤ cap := by
  subst hsplit
  have hpre := goodRun_prefix pre (NewTileCache cap, h0) suf hgood
  have hInit : CacheInv (NewTileCache cap, h0).1 := ⟨rfl, hcap, hcap⟩
  have hfin := cacheInv_run pre (NewTileCache cap, h0) hInit hpre
  have hmax := runOps_maxSize pre (NewTileCache cap, h0)
  have := hfin.2.1
  rw [hmax] at this
  exact this

/-- A heap holding one three-byte buffer at address 0, for witnesses. -/
def threeByteHeap : GoHeap := (allocBuf emptyHeap [1, 2, 3]).2

/-- A response whose bytes live at address 0, for witnesses. -/
def respAt0 : TileResponse :=
  { Data := 0, Width := 512, Height := 512, ContentType := "image/webp", CacheKey := "a:0:0:0:0" }

theorem cache_capacity_amended_witness :
    (runOps (NewTileCache 10, threeByteHeap)
      [CacheOp.set "a" respAt0, CacheOp.set "a" respAt0, CacheOp.get "a"]).1.currentSize
      ≤ 10 :=
  cache_capacity_amended 10 threeByteHeap
    [CacheOp.set "a" respAt0, CacheOp.set "a" respAt0, CacheOp.get "a",
     CacheOp.set "b" respAt0, CacheOp.clear]
    [CacheOp.set "a" respAt0, CacheOp.set "a" respAt0, CacheOp.get "a"]
    [CacheOp.set "b" respAt0, CacheOp.clear]
    (by decide) (by decide) rfl

/-- A heap with an eleven-byte buffer at address 0. -/
def elevenByteHeap : GoHeap :=
  (allocBuf emptyHeap [1, 2, 3, 4, 5, 6, 7, 8, 9, 10, 11]).2

/-- A heap with buffers of six, four and seven bytes at addresses 0-2. -/
def sixFourSevenHeap : GoHeap :=
  (allocBuf (allocBuf (allocBuf emptyHeap [1, 1, 1, 1, 1, 1]).2
    [2, 2, 2, 2]).2 [3, 3, 3, 3, 3, 3, 3]).2

def respAt1 : TileResponse :=
  { Data := 1, Width := 512, Height := 512, ContentType := "image/webp", CacheKey := "b" }

def respAt2 : TileResponse :=
  { Data := 2, Width := 512, Height := 512, ContentType := "image/webp", CacheKey := "a" }

/-- C2 counterexample: with capacity 10, inserting a single 11-byte entry
leaves 11 resident bytes, and updating an existing key from 6 to 7 bytes
when 4 other bytes are resident leaves 11 resident bytes; both exceed
the configured capacity after a mutating call completes. -/
theorem cache_capacity_counterexample :
    ((NewTileCache 10).Set elevenByteHeap "k" respAt0).currentSize = 11 ∧
    ((runOps (NewTileCache 10, sixFourSevenHeap)
      [CacheOp.set "a" respAt0, CacheOp.set "b" respAt1, CacheOp.set "a" respAt2]).1).currentSize
      = 11 ∧
    ¬ ((NewTileCache 10).Set elevenByteHeap "k" respAt0).currentSize ≤ 10 := by
  refine ⟨by decide, by decide, by decide⟩

/-! ## C8: Get returns an independent copy -/

theorem set_lru_head (c : TileCache) (h : GoHeap) (k : String) (v : TileResponse) :
    ∃ rest, (c.Set h k v).lru =
      { key := k, value := v, size := ((h.bufs v.Data).length : Int), timestamp := 0 }
        :: rest := by
  unfold TileCache.Set
  cases findEntry c.lru k <;> exact ⟨_, rfl⟩

theorem get_front (c : TileCache) (h : GoHeap) (k : String) (e : cacheEntry)
    (rest : List cacheEntry) (hlru : c.lru = e :: rest) (hk : e.key = k) :
    c.Get h k =
      (some { Data := h.next, Width := e.value.Width, Height := e.value.Height,
              ContentType := e.value.ContentType, CacheKey := e.value.CacheKey },
       { c with hits := c.hits + 1, lru := e :: removeKey c.lru k },
       (allocBuf h (h.bufs e.value.Data)).2) := by
  unfold TileCache.Get
  rw [hlru, findEntry_cons, if_pos hk]
  rfl

/-- C8: after Set(k, v), Get(k) yields bytes equal to the bytes of v but
stored in a freshly allocated buffer distinct from the one the cache
holds, and overwriting the returned buffer does not change what a second
Get(k) returns. The hypothesis says only that v's buffer was allocated
in the heap. -/
theorem get_copy_isolation (c : TileCache) (h : GoHeap) (k : String) (v : TileResponse)
    (mutBytes : List Nat) (hv : v.Data < h.next) :
    ∃ r c₂ h₂,
      (c.Set h k v).Get h k = (some r, c₂, h₂) ∧
      h₂.bufs r.Data = h.bufs v.Data ∧
      r.Data ≠ v.Data ∧
      ∃ r₂ c₃ h₃,
        c₂.Get (writeBuf h₂ r.Data mutBytes) k = (some r₂, c₃, h₃) ∧
        h₃.bufs r₂.Data = h.bufs v.Data := by
  have hne : v.Data ≠ h.next := Nat.ne_of_lt hv
  obtain ⟨rest, hlru⟩ := set_lru_head c h k v
  refine ⟨_, _, _, get_front (c.Set h k v) h k _ rest hlru rfl, ?_, ?_, ?_⟩
  · simp [allocBuf]
  · exact fun hEq => hne hEq.symm
  · refine ⟨_, _, _, get_front _ _ k _ _ rfl rfl, ?_⟩
    simp [allocBuf, writeBuf, hne]

def respForC8 : TileResponse :=
  { Data := 0, Width := 512, Height := 512, ContentType := "image/webp", CacheKey := "w" }

theorem get_copy_isolation_witness :
    ∃ r c₂ h₂,
      ((NewTileCache 100).Set threeByteHeap "w" respForC8).Get threeByteHeap "w"
        = (some r, c₂, h₂) ∧
      h₂.bufs r.Data = threeByteHeap.bufs respForC8.Data ∧
      r.Data ≠ respForC8.Data ∧
      ∃ r₂ c₃ h₃,
        c₂.Get (writeBuf h₂ r.Data [9, 9, 9]) "w" = (some r₂, c₃, h₃) ∧
        h₃.bufs r₂.Data = threeByteHeap.bufs respForC8.Data :=
  get_copy_isolation (NewTileCache 100) threeByteHeap "w" respForC8 [9, 9, 9] (by decide)

/-! ## DeviceProtocolClient (internal/tiler/encoders.go, package scanner)

The net.Conn is modelled by the list of byte chunks the network will
deliver: one Read call returns a prefix of the first pending chunk, up
to the requested length, which is how a stream socket behaves; an
exhausted chunk list means end of stream and makes Read fail. Writes
are recorded and always succeed. A context is modelled by the number of
cancellation polls after which it reports done (none = never). -/

abbrev ConnStream := List (List Nat)

def connRead (stream : ConnStream) (n : Nat) : Except String (List Nat) × ConnStream :=
  match stream with
  | [] => (.error "EOF", [])
  | chunk :: rest =>
    let delivered := chunk.take n
    let remaining := chunk.drop n
    (.ok delivered, if remaining = [] then rest else remaining :: rest)

def ctxDone : Option Nat → Nat → Bool
  | none, _ => false
  | some k, polls => decide (k ≤ polls)

/-- binary.BigEndian.Uint32 over a byte list at an offset. -/
def be32 (l : List Nat) (i : Nat) : Nat :=
  l.getD i 0 * 16777216 + l.getD (i + 1) 0 * 65536 + l.getD (i + 2) 0 * 256 + l.getD (i + 3) 0

/-- binary.BigEndian.PutUint32. -/
def be32enc (n : Nat) : List Nat :=
  [n / 16777216 % 256, n / 65536 % 256, n / 256 % 256, n % 256]

structure LayerData where
  Layer : Nat
  Width : Nat
  Height : Nat
  TilesX : Nat
  TilesY : Nat
  TileSize : Nat
  Compressed : Bool
  RawData : List Nat
  deriving DecidableEq

def streamBytes (stream : ConnStream) : Nat := (stream.map List.length).sum

/-- The payload loop shared by receiveLayerData (encoders.go lines
278-290, with a context poll each iteration) and readResponse (lines
368-374, no context): while fewer than dataSize bytes have accumulated,
poll the context if one is given, then Read the remaining count. The
fuel bounds iterations; callers pass total pending bytes plus chunk
count plus one, which a run can never exhaust because every iteration
either fails, consumes a byte, or drops an emptied chunk. -/
def recvLoop (ctx : Option Nat) (dataSize : Nat) :
    Nat → Nat → ConnStream → List Nat → Except String (List Nat) × ConnStream
  | 0, _, stream, _ => (.error "out of fuel", stream)
  | fuel + 1, polls, stream, acc =>
    if acc.length < dataSize then
      if ctxDone ctx polls then (.error "context canceled", stream)
      else
        match connRead stream (dataSize - acc.length) with
        | (.error e, stream₁) => (.error e, stream₁)
        | (.ok bytes, stream₁) => recvLoop ctx dataSize fuel (polls + 1) stream₁ (acc ++ bytes)
    else (.ok acc, stream)

/-- receiveLayerData (encoders.go lines 257-293): one conn.Read into the
zeroed 32-byte header buffer whose returned byte count the code
discards, header parsing at fixed offsets, then the read-until-complete
payload loop for dataSize bytes. -/
def receiveLayerData (ctx : Option Nat) (stream : ConnStream) :
    Except String LayerData × ConnStream :=
  match connRead stream 32 with
  | (.error e, stream₁) => (.error e, stream₁)
  | (.ok got, stream₁) =>
    let header := got ++ List.replicate (32 - got.length) 0
    let dataSize := be32 header 28
    match recvLoop ctx dataSize (streamBytes stream₁ + stream₁.length + 1) 0 stream₁ [] with
    | (.error e, stream₂) => (.error e, stream₂)
    | (.ok raw, stream₂) =>
      (.ok { Layer := be32 header 0, Width := be32 header 4, Height := be32 header 8,
             TilesX := be32 header 12, TilesY := be32 header 16, TileSize := be32 header 20,
             Compressed := header.getD 24 0 == 1, RawData := raw }, stream₂)

/-- readResponse (encoders.go lines 358-378): one conn.Read into the
4-byte length buffer (byte count again discarded), then the
read-until-complete loop, which here performs no context poll. -/
def readResponse (stream : ConnStream) : Except String (List Nat) × ConnStream :=
  match connRead stream 4 with
  | (.error e, stream₁) => (.error e, stream₁)
  | (.ok got, stream₁) =>
    let lengthBuf := got ++ List.replicate (4 - got.length) 0
    let length := be32 lengthBuf 0
    recvLoop none length (streamBytes stream₁ + stream₁.length + 1) 0 stream₁ []

/-- Scanner protocol opcodes (encoders.go lines 110-120). -/
def CMD_CONNECT : Nat := 1
def CMD_DISCONNECT : Nat := 2
def CMD_SCAN : Nat := 3
def CMD_GET_LAYERS : Nat := 4
def CMD_CALIBRATE : Nat := 5
def CMD_STATUS : Nat := 6
def CMD_SET_FOCUS : Nat := 7
def CMD_GET_IMAGE : Nat := 8

structure ScanRequest where
  StartX : Nat
  StartY : Nat
  Width : Nat
  Height : Nat
  Layers : List Nat
  deriving DecidableEq

/-- ScanResult (encoders.go lines 92-97) restricted to its layer list;
the SlideID and Timestamp fields are derived from the wall clock and
carry no logic. -/
structure ScanResult where
  Layers : List LayerData
  deriving DecidableEq

/-- The scanner Interface (encoders.go lines 67-73): its connected flag
and its connection, the latter split into the pending inbound chunks and
the log of written packets. -/
structure Interface where
  connected : Bool
  stream : ConnStream
  sent : List (List Nat)
  deriving DecidableEq

/-- sendCommand (encoders.go lines 342-356): frame [CMD][LENGTH][DATA]
and write it; the write itself is modelled as succeeding. -/
def sendCommand (s : Interface) (cmd : Nat) (data : List Nat) : Interface :=
  { s with sent := s.sent ++ [cmd :: (be32enc data.length ++ data)] }

/-- The 20-byte scan command payload plus the layer index list
(encoders.go lines 218-230). -/
def scanPayload (req : ScanRequest) : List Nat :=
  be32enc req.StartX ++ be32enc req.StartY ++ be32enc req.Width ++ be32enc req.Height ++
    be32enc req.Layers.length ++ (req.Layers.map be32enc).flatten

/-- The reception loop of StartScan (encoders.go lines 246-252): one
receiveLayerData per requested layer, aborting on the first error. -/
def recvLayers (ctx : Option Nat) : Nat → ConnStream → Except String (List LayerData) × ConnStream
  | 0, stream => (.ok [], stream)
  | k + 1, stream =>
    match receiveLayerData ctx stream with
    | (.error e, stream₁) => (.error e, stream₁)
    | (.ok ld, stream₁) =>
      match recvLayers ctx k stream₁ with
      | (.error e, stream₂) => (.error e, stream₂)
      | (.ok lds, stream₂) => (.ok (ld :: lds), stream₂)

/-- StartScan (encoders.go lines 209-255): guard on the connected flag,
send the scan command, then receive one LayerData per requested layer.
Neither the error path nor any other path writes the connected flag. -/
def Interface.StartScan (ctx : Option Nat) (s : Interface) (req : ScanRequest) :
    Except String ScanResult × Interface :=
  if s.connected = false then (.error "not connected to scanner", s)
  else
    let s₁ := sendCommand s CMD_SCAN (scanPayload req)
    match recvLayers ctx req.Layers.length s₁.stream with
    | (.error e, rem) => (.error ("failed to receive layer data: " ++ e), { s₁ with stream := rem })
    | (.ok lds, rem) => (.ok { Layers := lds }, { s₁ with stream := rem })

theorem recvLayers_zero (ctx : Option Nat) (stream : ConnStream) :
    recvLayers ctx 0 stream = (.ok [], stream) := rfl

theorem recvLayers_succ (ctx : Option Nat) (k : Nat) (stream : ConnStream) :
    recvLayers ctx (k + 1) stream =
      match receiveLayerData ctx stream with
      | (.error e, stream₁) => (.error e, stream₁)
      | (.ok ld, stream₁) =>
        match recvLayers ctx k stream₁ with
        | (.error e, stream₂) => (.error e, stream₂)
        | (.ok lds, stream₂) => (.ok (ld :: lds), stream₂) := rfl

/-! ## C5: the framing reads -/

/-- A complete 32-byte layer header declaring layer 1, width 2, height
3, tilesX 4, tilesY 5, tileSize 6, compressed, dataLength 2. -/
def fullHeader : List Nat :=
  [0, 0, 0, 1, 0, 0, 0, 2, 0, 0, 0, 3, 0, 0, 0, 4,
   0, 0, 0, 5, 0, 0, 0, 6, 1, 0, 0, 0, 0, 0, 0, 2]

/-- The same wire bytes delivered with the header split across two
reads: first 16 header bytes, then the rest plus the 2-byte payload. -/
def splitHeaderStream : ConnStream := [fullHeader.take 16, fullHeader.drop 16 ++ [9, 9]]

/-- The same wire bytes with the whole header available to one read. -/
def wholeHeaderStream : ConnStream := [fullHeader ++ [9, 9]]

/-- C5: the 32-byte header is read with a single conn.Read whose byte
count is discarded, so when the stream delivers the header in two parts
the second half is never consumed: the partially filled header parses
with tilesY, tileSize, compressed and dataLength all zero and an empty
payload, while the identical bytes delivered in one chunk parse to
tilesY 5, tileSize 6, compressed, and the 2-byte payload. The declared
values really are 5 and 2 at offsets 16 and 28. -/
theorem header_partial_read_bug :
    receiveLayerData none splitHeaderStream =
      (.ok { Layer := 1, Width := 2, Height := 3, TilesX := 4, TilesY := 0, TileSize := 0,
             Compressed := false, RawData := [] },
       [fullHeader.drop 16 ++ [9, 9]]) ∧
    receiveLayerData none wholeHeaderStream =
      (.ok { Layer := 1, Width := 2, Height := 3, TilesX := 4, TilesY := 5, TileSize := 6,
             Compressed := true, RawData := [9, 9] }, []) ∧
    be32 fullHeader 16 = 5 ∧ be32 fullHeader 28 = 2 := by
  refine ⟨rfl, rfl, by decide, by decide⟩

/-! ## C6: scan failure semantics -/

theorem recvLayers_ok_length (ctx : Option Nat) :
    ∀ (k : Nat) (stream : ConnStream) (lds : List LayerData) (rem : ConnStream),
      recvLayers ctx k stream = (.ok lds, rem) → lds.length = k := by
  intro k
  induction k with
  | zero =>
    intro stream lds rem h
    rw [recvLayers_zero] at h
    simp only [Prod.mk.injEq, Except.ok.injEq] at h
    rw [← h.1]
    rfl
  | succ k ih =>
    intro stream lds rem h
    rw [recvLayers_succ] at h
    split at h
    · simp at h
    · split at h
      · simp at h
      · have hlen := ih _ _ _ (by assumption)
        simp only [Prod.mk.injEq, Except.ok.injEq] at h
        rw [← h.1, List.length_cons, hlen]

/-- C6 amended: an I/O failure (including cancellation or premature end
of stream) while receiving scan layers aborts the whole scan with an
error that carries no layer data, and a structurally successful return
carries exactly one LayerData per requested layer, so no partial layer
list is ever returned; but the connected flag is left unchanged rather
than being forced to the disconnected state — no path of StartScan
writes it. -/
theorem scan_abort_amended (ctx : Option Nat) (s : Interface) (req : ScanRequest)
    (hconn : s.connected = true) :
    (Interface.StartScan ctx s req).2.connected = true ∧
    ∀ r rem, Interface.StartScan ctx s req = (.ok r, rem) →
      r.Layers.length = req.Layers.length := by
  unfold Interface.StartScan
  rw [hconn]
  rw [if_neg (by decide : ¬ (true = false))]
  dsimp only
  constructor
  · split
    · exact hconn
    · exact hconn
  · intro r rem h
    split at h
    · simp at h
    · have hlen := recvLayers_ok_length ctx req.Layers.length _ _ _ (by assumption)
      simp only [Prod.mk.injEq, Except.ok.injEq] at h
      rw [← h.1]
      exact hlen

/-- A connected client whose device closes the connection immediately. -/
def scanIface : Interface := { connected := true, stream := [], sent := [] }

def scanReq1 : ScanRequest := { StartX := 0, StartY := 0, Width := 4, Height := 4, Layers := [0] }

theorem scan_abort_amended_witness :
    (Interface.StartScan none scanIface scanReq1).2.connected = true ∧
    ∀ r rem, Interface.StartScan none scanIface scanReq1 = (.ok r, rem) →
      r.Layers.length = scanReq1.Layers.length :=
  scan_abort_amended none scanIface scanReq1 rfl

/-- C6 counterexample: end of stream while the first layer is expected
makes StartScan return an error, yet the connection state still reports
connected — it is not forced to the disconnected state as claimed. -/
theorem scan_error_state_counterexample :
    (Interface.StartScan none scanIface scanReq1).1
      = .error "failed to receive layer data: EOF" ∧
    (Interface.StartScan none scanIface scanReq1).2.connected = true ∧
    ¬ (Interface.StartScan none scanIface scanReq1).2.connected = false := by
  refine ⟨rfl, rfl, fun h => ?_⟩
  rw [show (Interface.StartScan none scanIface scanReq1).2.connected = true from rfl] at h
  exact Bool.noConfusion h

/-! ## GPUTileProcessor (internal/tiler/gpu_processor.go) -/

structure TileRequest where
  SlideID : String
  Layer : Int
  X : Int
  Y : Int
  Z : Int
  Width : Int
  Height : Int
  Format : String
  Quality : Int
  deriving DecidableEq

/-- The concrete encoder libraries a tile request can end up in. -/
inductive EncoderKind where
  | jpeg : EncoderKind
  | webp : EncoderKind
  deriving DecidableEq

/-- The encodeTile dispatch (gpu_processor.go lines 194-201): the switch
on req.Format sends webp to the WebP encoder, avif to encodeAVIF —
which falls back to the WebP encoder (encoders.go lines 47-52) — and
everything else, the empty string included, to the JPEG encoder. -/
def encoderFor (format : String) : EncoderKind :=
  if format = "webp" then .webp
  else if format = "avif" then .webp
  else .jpeg

/-- Modelled from the spec: the outcomes of the external calls the
single-tile miss path makes, none of which are code under src — the
storage backend behind loadRawTile (an unimplemented stub standing for
the slide archive collaborator the spec names), the CUDA allocation,
copy and synchronization calls, and the JPEG and WebP encoder
libraries. Each field is the result the call would produce; ProcessTile
itself is translated from the source against these inputs. -/
structure TileEnv where
  loadRaw : Except String (List Nat)
  mallocInOk : Bool
  mallocOutOk : Bool
  memcpyH2DOk : Bool
  syncOk : Bool
  memcpyD2HOk : Bool
  jpegEnc : Int → Except String (List Nat)
  webpEnc : Int → Except String (List Nat)

/-- encodeTile (gpu_processor.go lines 185-202) with the encoder
libraries supplied by the environment; the content type strings come
from encoders.go lines 25 and 43. -/
def encodeTile (env : TileEnv) (req : TileRequest) : Except String (List Nat × String) :=
  match encoderFor req.Format with
  | .webp =>
    match env.webpEnc req.Quality with
    | .error e => .error e
    | .ok bytes => .ok (bytes, "image/webp")
  | .jpeg =>
    match env.jpegEnc req.Quality with
    | .error e => .error e
    | .ok bytes => .ok (bytes, "image/jpeg")

/-- The Sprintf cache key of gpu_processor.go line 98. -/
def cacheKeyOf (req : TileRequest) : String :=
  tileCacheKey req.SlideID req.Layer req.X req.Y req.Z

/-- Result of one ProcessTile call together with the number of buffer
pool checkouts (bufferPool.Get, line 148) and returns (bufferPool.Put,
lines 157 and 173) it performed. -/
structure ProcOut where
  result : Except String TileResponse
  cache : TileCache
  heap : GoHeap
  poolGets : Nat
  poolPuts : Nat

/-- ProcessTile (gpu_processor.go lines 96-176), branch for branch in
source order: cache lookup, raw load, the two device allocations, copy
to device, kernel launch and stream synchronization (the kernel launch
itself has no error path), then the pooled buffer checkout, the copy
back from the device — whose failure path returns WITHOUT a Put — the
encode step (failure path Puts), and the success path that stores the
response in the cache and Puts. -/
def ProcessTile (env : TileEnv) (c : TileCache) (h : GoHeap) (req : TileRequest) : ProcOut :=
  let cacheKey := cacheKeyOf req
  match c.Get h cacheKey with
  | (some cached, c₁, h₁) => ⟨.ok cached, c₁, h₁, 0, 0⟩
  | (none, c₁, h₁) =>
    match env.loadRaw with
    | .error e => ⟨.error ("failed to load raw tile: " ++ e), c₁, h₁, 0, 0⟩
    | .ok _raw =>
      if env.mallocInOk = false then
        ⟨.error "failed to allocate GPU input memory", c₁, h₁, 0, 0⟩
      else if env.mallocOutOk = false then
        ⟨.error "failed to allocate GPU output memory", c₁, h₁, 0, 0⟩
      else if env.memcpyH2DOk = false then
        ⟨.error "failed to copy to GPU", c₁, h₁, 0, 0⟩
      else if env.syncOk = false then
        ⟨.error "CUDA stream sync failed", c₁, h₁, 0, 0⟩
      else if env.memcpyD2HOk = false then
        ⟨.error "failed to copy from GPU", c₁, h₁, 1, 0⟩
      else
        match encodeTile env req with
        | .error e => ⟨.error ("failed to encode tile: " ++ e), c₁, h₁, 1, 1⟩
        | .ok encoded =>
          let alloc := allocBuf h₁ encoded.1
          let response : TileResponse :=
            { Data := alloc.1, Width := req.Width, Height := req.Height,
              ContentType := encoded.2, CacheKey := cacheKey }
          ⟨.ok response, c₁.Set alloc.2 cacheKey response, alloc.2, 1, 1⟩

/-- The per-item results of a batch in input order. Worker scheduling is
abstracted to sequential order; which items run concurrently affects
only cache interleaving, not the property below: in the source any item
whose ProcessTile call fails sends its error to errChan and makes
ProcessBatch return (nil, err). -/
def runBatchItems : List (TileEnv × TileRequest) → TileCache → GoHeap →
    List (Except String TileResponse) × TileCache × GoHeap
  | [], c, h => ([], c, h)
  | (env, req) :: rest, c, h =>
    let out := ProcessTile env c h req
    let tail := runBatchItems rest out.cache out.heap
    (out.result :: tail.1, tail.2)

def firstError : List (Except String TileResponse) → Option String
  | [] => none
  | Except.error e :: _ => some e
  | Except.ok _ :: rest => firstError rest

/-- ProcessBatch (gpu_processor.go lines 215-263): after the workers
drain the queue, the first error received on errChan — if any item
failed — is returned with a nil slice (lines 257-260); only when every
item succeeded is the response slice returned. -/
def ProcessBatch (items : List (TileEnv × TileRequest)) (c : TileCache) (h : GoHeap) :
    Except String (List TileResponse) × TileCache × GoHeap :=
  let run := runBatchItems items c h
  match firstError run.1 with
  | some e => (.error e, run.2)
  | none => (.ok (run.1.filterMap Except.toOption), run.2)

/-! ## HTTP handlers (internal/api/handler.go) -/

/-- handleGetTile (handler.go lines 68-97): the request built from the
parsed query parameters, with the format and quality defaults applied
before ProcessTile is called. -/
def handleGetTileRequest (slideId : String) (layer x y z : Int) (format : String)
    (quality : Int) : TileRequest :=
  let format₁ := if format = "" then "webp" else format
  let quality₁ := if quality = 0 then 85 else quality
  { SlideID := slideId, Layer := layer, X := x, Y := y, Z := z,
    Width := 512, Height := 512, Format := format₁, Quality := quality₁ }

/-- handleBatchTiles (handler.go lines 124-137): the decoded request
list is rejected when longer than 100 and otherwise handed to
ProcessBatch unchanged — no field of any item is defaulted. -/
def handleBatchForward (requests : List TileRequest) : Option (List TileRequest) :=
  if requests.length > 100 then none else some requests

/-! ## Concrete environments and requests for the pipeline claims -/

/-- Every external call succeeds. -/
def envAllOk : TileEnv :=
  { loadRaw := .ok [1, 2, 3, 4], mallocInOk := true, mallocOutOk := true,
    memcpyH2DOk := true, syncOk := true, memcpyD2HOk := true,
    jpegEnc := fun _ => .ok [7], webpEnc := fun _ => .ok [8] }

/-- The stream synchronization after the kernel launch fails. -/
def envSyncFail : TileEnv := { envAllOk with syncOk := false }

/-- The device-to-host copy after the buffer checkout fails. -/
def envD2HFail : TileEnv := { envAllOk with memcpyD2HOk := false }

/-- Both encoder libraries reject the image. -/
def envEncodeFail : TileEnv :=
  { envAllOk with jpegEnc := fun _ => .error "encoder rejected the image",
                  webpEnc := fun _ => .error "encoder rejected the image" }

/-- A JPEG encoder that reports which quality value it was handed. -/
def envQualProbe : TileEnv :=
  { envAllOk with
      jpegEnc := fun q => if q = 0 then .error "quality zero reached the encoder" else .ok [9] }

def reqAtX (x : Int) : TileRequest :=
  { SlideID := "s", Layer := 0, X := x, Y := 0, Z := 0, Width := 512, Height := 512,
    Format := "webp", Quality := 85 }

/-- A request with format and quality left unset, as a batch item
decoded from JSON without those fields would be. -/
def reqUnset : TileRequest :=
  { SlideID := "s", Layer := 0, X := 0, Y := 0, Z := 0, Width := 512, Height := 512,
    Format := "", Quality := 0 }

/-! ## C3: the pooled buffer on the miss-path exits -/

/-- C3: on the cache-miss path, when everything up to the kernel
succeeds but the device-to-host copy fails, ProcessTile has checked a
pooled buffer out (one Get) and returns the error without returning it
(zero Puts) — this exit path leaks the buffer. The encode-failure exit
and the success exit, run on the same request, both return the buffer
(one Get, one Put), so the discipline the claim states is otherwise
present but violated on the copy-back failure path. -/
theorem buffer_leak_on_copyback_failure :
    (ProcessTile envD2HFail (NewTileCache 1000) emptyHeap (reqAtX 0)).result
      = .error "failed to copy from GPU" ∧
    (ProcessTile envD2HFail (NewTileCache 1000) emptyHeap (reqAtX 0)).poolGets = 1 ∧
    (ProcessTile envD2HFail (NewTileCache 1000) emptyHeap (reqAtX 0)).poolPuts = 0 ∧
    (ProcessTile envEncodeFail (NewTileCache 1000) emptyHeap (reqAtX 0)).poolGets = 1 ∧
    (ProcessTile envEncodeFail (NewTileCache 1000) emptyHeap (reqAtX 0)).poolPuts = 1 ∧
    (ProcessTile envAllOk (NewTileCache 1000) emptyHeap (reqAtX 0)).poolGets = 1 ∧
    (ProcessTile envAllOk (NewTileCache 1000) emptyHeap (reqAtX 0)).poolPuts = 1 :=
  ⟨rfl, rfl, rfl, rfl, rfl, rfl, rfl⟩

/-! ## C1: batch fault isolation -/

/-- C1: a 3-item batch whose middle item fails at the compute stage: the
first and third items process successfully on their own, yet
ProcessBatch returns the error with a nil slice instead of three
per-item slots — the first error aborts the whole batch. -/
theorem batch_first_error_aborts :
    (ProcessBatch [(envAllOk, reqAtX 0), (envSyncFail, reqAtX 1), (envAllOk, reqAtX 2)]
      (NewTileCache 1000000) emptyHeap).1 = .error "CUDA stream sync failed" ∧
    (ProcessTile envAllOk (NewTileCache 1000000) emptyHeap (reqAtX 0)).result.toOption.isSome
      = true ∧
    (ProcessTile envSyncFail (NewTileCache 1000000) emptyHeap (reqAtX 1)).result
      = .error "CUDA stream sync failed" ∧
    (ProcessTile envAllOk (NewTileCache 1000000) emptyHeap (reqAtX 2)).result.toOption.isSome
      = true :=
  ⟨rfl, rfl, rfl, rfl⟩

/-! ## C7: format and quality defaulting -/

/-- C7 amended: the single-tile HTTP path defaults an empty format to
webp and a zero quality to 85 before the request reaches the pipeline;
the batch path applies no defaults — the decoded items are forwarded to
ProcessBatch unchanged (the over-100 cap aside), so an unset format
falls through encodeTile to the JPEG encoder with quality 0. -/
theorem defaults_amended :
    (∀ (slideId : String) (layer x y z : Int) (format : String) (quality : Int),
      (format = "" →
        (handleGetTileRequest slideId layer x y z format quality).Format = "webp") ∧
      (quality = 0 →
        (handleGetTileRequest slideId layer x y z format quality).Quality = 85)) ∧
    (∀ requests : List TileRequest, requests.length ≤ 100 →
      handleBatchForward requests = some requests) := by
  constructor
  · intro slideId layer x y z format quality
    constructor
    · intro hf
      simp [handleGetTileRequest, hf]
    · intro hq
      simp [handleGetTileRequest, hq]
  · intro requests hlen
    rw [handleBatchForward, if_neg (by omega)]

theorem defaults_amended_witness :
    (handleGetTileRequest "s" 0 0 0 0 "" 0).Format = "webp" ∧
    (handleGetTileRequest "s" 0 0 0 0 "" 0).Quality = 85 ∧
    handleBatchForward [reqUnset] = some [reqUnset] :=
  ⟨(defaults_amended.1 "s" 0 0 0 0 "" 0).1 rfl,
   (defaults_amended.1 "s" 0 0 0 0 "" 0).2 rfl,
   defaults_amended.2 [reqUnset] (by decide)⟩

/-- C7 counterexample: a batch item with unset format and zero quality
passes the batch handler unchanged and reaches the encode stage still
unset, where the format dispatch selects the JPEG encoder — not webp —
and the encoder receives quality 0, not 85. -/
theorem batch_no_defaults_counterexample :
    handleBatchForward [reqUnset] = some [reqUnset] ∧
    reqUnset.Format = "" ∧ reqUnset.Quality = 0 ∧
    encoderFor reqUnset.Format = EncoderKind.jpeg ∧
    (ProcessTile envAllOk (NewTileCache 1000) emptyHeap reqUnset).result
      = .ok { Data := 0, Width := 512, Height := 512, ContentType := "image/jpeg",
              CacheKey := cacheKeyOf reqUnset } ∧
    cacheKeyOf reqUnset = "s:0:0:0:0" ∧
    (ProcessTile envQualProbe (NewTileCache 1000) emptyHeap reqUnset).result
      = .error "failed to encode tile: quality zero reached the encoder" :=
  ⟨rfl, rfl, rfl, rfl, rfl, by decide, rfl⟩

end CytoViewer
